import Mathlib

/-!
Verification development for the law-copilot retrieval pipeline.

The Python backend is shallowly embedded: regex scans are represented by
their position-sorted match lists, numeric scores and thresholds by
rationals, fallible operations by Except, and the generative / embedding
services by function parameters. Each definition mirrors one function of
the source tree (parsers, vector store, LLM service, RAG orchestrator).
-/

namespace LawCopilot

/-- Python string join: `sep.join(parts)`. -/
def pyJoin (sep : String) : List String → String
  | [] => ""
  | [a] => a
  | a :: rest => a ++ sep ++ pyJoin sep rest

/-- Replace every maximal whitespace run by a single space, as the Python
regex substitution of a whitespace run by one space does. The boolean flag
records whether the previous character was whitespace. -/
def squashChars : Bool → List Char → List Char
  | _, [] => []
  | prevWS, c :: rest =>
    if c.isWhitespace then
      (if prevWS then squashChars true rest else ' ' :: squashChars true rest)
    else c :: squashChars false rest

/-- The whitespace-run squashing applied to a whole string. -/
def squashWS (s : String) : String := ⟨squashChars false s.data⟩

/-- Python str.strip: drop whitespace from both ends. -/
def pyStrip (s : String) : String :=
  ⟨((s.data.dropWhile Char.isWhitespace).reverse.dropWhile Char.isWhitespace).reverse⟩

/-- Python str.lower, character-wise. -/
def pyLower (s : String) : String := ⟨s.data.map Char.toLower⟩

/-- Python str.upper, character-wise. -/
def pyUpper (s : String) : String := ⟨s.data.map Char.toUpper⟩

/-- Boolean substring test on character lists (Python `needle in hay`). -/
def isSubChars (needle : List Char) : List Char → Bool
  | [] => needle.isEmpty
  | c :: rest => needle.isPrefixOf (c :: rest) || isSubChars needle rest

/-- Python `kw in text` substring membership on strings. -/
def strContains (hay kw : String) : Bool := isSubChars kw.data hay.data

/-- A match of one of the hierarchy-heading regexes: start offset in the
text, group 1 (the numeral) and group 2 (the heading name). The regex scan
itself is not re-implemented; a parser is given the position-sorted match
list that finditer would yield. -/
structure HMatch where
  start : ℕ
  numero : String
  nombre : String
  deriving DecidableEq, Repr

/-- A match of the article regex: start offset, group 1 (the article
number) and group 2 (the article body). -/
structure ArtMatch where
  start : ℕ
  numero : String
  cuerpo : String
  deriving DecidableEq, Repr

/-- A match of the final-dispositions regex of the constitution parser:
group 1 (the ordinal word) and group 2 (the content). -/
structure DispMatch where
  ordinal : String
  contenido : String
  deriving DecidableEq, Repr

/-- Calendar date, mirroring datetime.date. -/
structure DateYMD where
  year : ℕ
  month : ℕ
  day : ℕ
  deriving DecidableEq, Repr

/-- SourceType enum of src/ingestion/models.py. -/
inductive SourceType where
  | constitucion
  | codigo
  | ley
  | reglamento
  | decreto
  deriving DecidableEq, Repr

/-- Payload model of src/ingestion/models.py. -/
structure Payload where
  label : String
  text_content : String
  deriving DecidableEq, Repr

/-- Hierarchy model of src/ingestion/models.py. -/
structure Hierarchy where
  level_1 : Option String
  level_2 : Option String
  level_3 : Option String
  deriving DecidableEq, Repr

/-- Metadata model of src/ingestion/models.py. -/
structure Metadata where
  is_active : Bool
  date_promulgated : Option DateYMD
  tags : List String
  deriving DecidableEq, Repr

/-- LegalArticle model of src/ingestion/models.py. -/
structure LegalArticle where
  id : String
  source_id : String
  source_type : SourceType
  payload : Payload
  hierarchy : Hierarchy
  metadata : Metadata
  deriving DecidableEq, Repr

namespace ConstitutionParser

/-- Heading string built for a TITULO match (strip the groups then squash
inner whitespace, as the source does before the f-string). -/
def fmtTitulo (m : HMatch) : String :=
  "Título " ++ pyStrip m.numero ++ ": " ++ squashWS (pyStrip m.nombre)

/-- Heading string built for a CAPITULO match. -/
def fmtCapitulo (m : HMatch) : String :=
  "Capítulo " ++ pyStrip m.numero ++ ": " ++ squashWS (pyStrip m.nombre)

/-- First loop of ConstitutionParser._find_hierarchy_at_position: walk the
TITULO matches in order; while the match starts before the position, record
it as the current título and reset the current capítulo; break at the first
match at or past the position. -/
def tituloLoop (position : ℕ) :
    List HMatch → Option String × Option String → Option String × Option String
  | [], st => st
  | m :: rest, st =>
    if m.start < position then tituloLoop position rest (some (fmtTitulo m), none)
    else st

/-- Second loop of ConstitutionParser._find_hierarchy_at_position: walk the
CAPITULO matches in order, recording the last one that starts before the
position. -/
def capituloLoop (position : ℕ) : List HMatch → Option String → Option String
  | [], st => st
  | m :: rest, st =>
    if m.start < position then capituloLoop position rest (some (fmtCapitulo m))
    else st

/-- ConstitutionParser._find_hierarchy_at_position over the match lists of
the two heading regexes. -/
def findHierarchyAtPosition (titulos capitulos : List HMatch) (position : ℕ) :
    Option String × Option String :=
  let st := tituloLoop position titulos (none, none)
  (st.1, capituloLoop position capitulos st.2)

/-- Fixed keyword vocabulary of ConstitutionParser._extract_tags. -/
def keywords : List String :=
  ["derechos humanos", "libertad", "igualdad", "vida", "trabajo",
   "educación", "salud", "propiedad", "familia", "debido proceso",
   "medio ambiente", "seguridad", "ciudadanía", "nacionalidad",
   "elecciones", "poder ejecutivo", "poder legislativo", "poder judicial",
   "tribunal constitucional", "defensoría", "contraloría",
   "gobierno regional", "gobierno local", "municipalidad",
   "estado de emergencia", "fuerzas armadas", "policía nacional"]

/-- ConstitutionParser._extract_tags: keywords occurring in the lowered
text, capped at 5. (Case mapping is modelled ASCII-only.) -/
def extractTags (text : String) : List String :=
  let textLower := pyLower text
  (keywords.filter (fun kw => strContains textLower kw)).take 5

/-- ConstitutionParser._generate_article_id. -/
def generateArticleId (num : String) : String := "CONST_1993_ART_" ++ num

/-- The ordinal_map of ConstitutionParser._generate_disposicion_id. -/
def ordinalMap : List (String × String) :=
  [("PRIMERA", "1"), ("SEGUNDA", "2"), ("TERCERA", "3"), ("CUARTA", "4"),
   ("QUINTA", "5"), ("SEXTA", "6"), ("SÉPTIMA", "7"), ("OCTAVA", "8"),
   ("NOVENA", "9"), ("DÉCIMA", "10"), ("UNDÉCIMA", "11"), ("DUODÉCIMA", "12"),
   ("DECIMOTERCERA", "13"), ("DECIMOCUARTA", "14"), ("DECIMOQUINTA", "15"),
   ("DECIMOSEXTA", "16")]

/-- ConstitutionParser._generate_disposicion_id. -/
def generateDisposicionId (ordinal : String) : String :=
  "CONST_1993_DISP_" ++ ((ordinalMap.lookup (pyUpper ordinal)).getD ordinal)

/-- Python str.title, character-wise (ASCII case mapping). -/
def titleChars : Bool → List Char → List Char
  | _, [] => []
  | prevAlpha, c :: rest =>
    if c.isAlpha then
      (if prevAlpha then c.toLower else c.toUpper) :: titleChars true rest
    else c :: titleChars false rest

/-- Python str.title on strings. -/
def pyTitle (s : String) : String := ⟨titleChars false s.data⟩

/-- DATE_PROMULGATED of the constitution parser. -/
def datePromulgated : DateYMD := ⟨1993, 12, 29⟩

/-- One LegalArticle built by the article loop of ConstitutionParser.parse.
The text-cleaning pipeline (_clean_article_text) is abstracted as the
function argument clean; no structural claim depends on it. -/
def mkArticle (clean : String → String) (titulos capitulos : List HMatch)
    (m : ArtMatch) : LegalArticle :=
  let article_text := clean m.cuerpo
  let h := findHierarchyAtPosition titulos capitulos m.start
  { id := generateArticleId m.numero
    source_id := "constitucion_1993"
    source_type := .constitucion
    payload := ⟨"Artículo " ++ m.numero, article_text⟩
    hierarchy := ⟨h.1, h.2, none⟩
    metadata := ⟨true, some datePromulgated, extractTags article_text⟩ }

/-- One LegalArticle built by the final-dispositions loop of
ConstitutionParser.parse. -/
def mkDisposicion (clean : String → String) (d : DispMatch) : LegalArticle :=
  let content := clean d.contenido
  { id := generateDisposicionId d.ordinal
    source_id := "constitucion_1993"
    source_type := .constitucion
    payload := ⟨"Disposición " ++ pyTitle d.ordinal, content⟩
    hierarchy := ⟨some "Disposiciones Finales y Transitorias", none, none⟩
    metadata := ⟨true, some datePromulgated, extractTags content⟩ }

/-- ConstitutionParser.parse over the match lists of its regex scans:
one record per article match (note: no deduplication), then, when the
DISPOSICIONES section header was found, one record per disposition match. -/
def parse (clean : String → String) (titulos capitulos : List HMatch)
    (arts : List ArtMatch) (dispSection : Option (List DispMatch)) :
    List LegalArticle :=
  arts.map (mkArticle clean titulos capitulos)
    ++ (match dispSection with
        | none => []
        | some ds => ds.map (mkDisposicion clean))

end ConstitutionParser

namespace CivilCodeParser

/-- The mutable hierarchy state of CivilCodeParser._find_hierarchy_at_position. -/
structure HState where
  libro : Option String
  seccion : Option String
  titulo : Option String
  capitulo : Option String
  deriving DecidableEq, Repr

/-- Heading string for a LIBRO match. -/
def fmtLibro (m : HMatch) : String :=
  "Libro " ++ pyStrip m.numero ++ ": " ++ squashWS (pyStrip m.nombre)

/-- Heading string for a SECCION match. -/
def fmtSeccion (m : HMatch) : String :=
  "Sección " ++ pyStrip m.numero ++ ": " ++ squashWS (pyStrip m.nombre)

/-- Heading string for a TITULO match. -/
def fmtTitulo (m : HMatch) : String :=
  "Título " ++ pyStrip m.numero ++ ": " ++ squashWS (pyStrip m.nombre)

/-- Heading string for a CAPITULO match. -/
def fmtCapitulo (m : HMatch) : String :=
  "Capítulo " ++ pyStrip m.numero ++ ": " ++ squashWS (pyStrip m.nombre)

/-- LIBRO loop: the last libro starting before the position wins, and
assigning a libro sets sección, título and capítulo back to None. -/
def libroLoop (position : ℕ) : List HMatch → HState → HState
  | [], st => st
  | m :: rest, st =>
    if m.start < position then
      libroLoop position rest ⟨some (fmtLibro m), none, none, none⟩
    else st

/-- SECCION loop: records the last sección starting before the position. -/
def seccionLoop (position : ℕ) : List HMatch → HState → HState
  | [], st => st
  | m :: rest, st =>
    if m.start < position then
      seccionLoop position rest { st with seccion := some (fmtSeccion m) }
    else st

/-- TITULO loop: records the last título starting before the position,
skipping PRELIMINAR and FINAL numerals. -/
def tituloLoop (position : ℕ) : List HMatch → HState → HState
  | [], st => st
  | m :: rest, st =>
    if m.start < position then
      tituloLoop position rest
        (if pyUpper (pyStrip m.numero) ∉ ["PRELIMINAR", "FINAL"] then
          { st with titulo := some (fmtTitulo m) }
        else st)
    else st

/-- CAPITULO loop: records the last capítulo starting before the position. -/
def capituloLoop (position : ℕ) : List HMatch → HState → HState
  | [], st => st
  | m :: rest, st =>
    if m.start < position then
      capituloLoop position rest { st with capitulo := some (fmtCapitulo m) }
    else st

/-- Whether the TÍTULO PRELIMINAR search over the text prefix before the
position succeeds. The parameter is the end offset of the first
occurrence of the phrase in the whole text, if any. -/
def prelimFound (prelimEnd : Option ℕ) (position : ℕ) : Bool :=
  match prelimEnd with
  | some e => e ≤ position
  | none => false

/-- The match lists of the civil-code hierarchy regex scans, plus the
TÍTULO PRELIMINAR search result. -/
structure Scan where
  libros : List HMatch
  secciones : List HMatch
  titulos : List HMatch
  capitulos : List HMatch
  prelimEnd : Option ℕ
  deriving DecidableEq, Repr

/-- CivilCodeParser._find_hierarchy_at_position: libro loop, título
preliminar fallback, then sección / título / capítulo loops; level 2 joins
the surviving sección, título and capítulo with the separator. -/
def findHierarchyAtPosition (sc : Scan) (position : ℕ) :
    Option String × Option String :=
  let st1 := libroLoop position sc.libros ⟨none, none, none, none⟩
  let st2 :=
    if prelimFound sc.prelimEnd position && (st1.libro == none) then
      { st1 with libro := some "Título Preliminar" }
    else st1
  let st3 := seccionLoop position sc.secciones st2
  let st4 := tituloLoop position sc.titulos st3
  let st5 := capituloLoop position sc.capitulos st4
  let parts :=
    (match st5.seccion with | some s => [s] | none => [])
      ++ (match st5.titulo with | some s => [s] | none => [])
      ++ (match st5.capitulo with | some s => [s] | none => [])
  (st5.libro, if parts.isEmpty then none else some (pyJoin " > " parts))

/-- Fixed keyword vocabulary of CivilCodeParser._extract_tags. -/
def keywords : List String :=
  ["persona natural", "persona jurídica", "capacidad", "nombre",
   "domicilio", "matrimonio", "divorcio", "filiación", "patria potestad",
   "tutela", "curatela", "alimentos", "herencia", "testamento",
   "sucesión", "legado", "propiedad", "posesión", "usufructo",
   "servidumbre", "hipoteca", "prenda", "obligación", "contrato",
   "compraventa", "arrendamiento", "mandato", "sociedad", "donación",
   "responsabilidad civil", "daño", "indemnización", "prescripción",
   "caducidad", "registro", "acto jurídico", "nulidad", "anulabilidad"]

/-- CivilCodeParser._extract_tags: keywords occurring in the lowered text,
capped at 5. -/
def extractTags (text : String) : List String :=
  let textLower := pyLower text
  (keywords.filter (fun kw => strContains textLower kw)).take 5

/-- CivilCodeParser._generate_article_id. -/
def generateArticleId (num : String) : String := "CC_ART_" ++ num

/-- DATE_PROMULGATED of the civil-code parser. -/
def datePromulgated : DateYMD := ⟨1984, 7, 24⟩

/-- One LegalArticle built by CivilCodeParser.parse. The text-cleaning
pipeline (_clean_article_text) is abstracted as the function argument
clean. -/
def mkArticle (clean : String → String) (sc : Scan) (m : ArtMatch) :
    LegalArticle :=
  let article_text := clean m.cuerpo
  let h := findHierarchyAtPosition sc m.start
  { id := generateArticleId m.numero
    source_id := "codigo_civil"
    source_type := .codigo
    payload := ⟨"Artículo " ++ m.numero, article_text⟩
    hierarchy := ⟨h.1, h.2, none⟩
    metadata := ⟨true, some datePromulgated, extractTags article_text⟩ }

/-- Article loop of CivilCodeParser.parse with the seen_ids set: a match
whose deterministic id was already seen is skipped entirely. -/
def parseGo (clean : String → String) (sc : Scan) :
    List ArtMatch → List String → List LegalArticle
  | [], _ => []
  | m :: rest, seen =>
    let aid := generateArticleId m.numero
    if aid ∈ seen then parseGo clean sc rest seen
    else mkArticle clean sc m :: parseGo clean sc rest (aid :: seen)

/-- CivilCodeParser.parse over the match lists of its regex scans. -/
def parse (clean : String → String) (sc : Scan) (arts : List ArtMatch) :
    List LegalArticle :=
  parseGo clean sc arts []

end CivilCodeParser

/-- Python list indexing, including negative-index wrapping; an index out
of range raises IndexError, modelled as the error case. -/
def pyGet {α : Type} (l : List α) (i : ℤ) : Except Unit α :=
  let j := if i < 0 then i + l.length else i
  if h : 0 ≤ j ∧ j.toNat < l.length then .ok (l.get ⟨j.toNat, h.2⟩)
  else .error ()

/-- Python str slice s[:n] (character-wise). -/
def pyTake (n : ℕ) (s : String) : String := ⟨s.data.take n⟩

namespace LegalVectorStore

/-- The loaded FAISS index, reduced to what the load-time claims observe:
its vector count (index.ntotal). -/
structure FaissIndex where
  ntotal : ℕ
  deriving DecidableEq, Repr

/-- Load-time failures of LegalVectorStore (both are FileNotFoundError in
the source). -/
inductive InitError where
  | indexNotFound
  | metadataNotFound
  deriving DecidableEq, Repr

/-- LegalVectorStore._initialize: fail if the index file is absent, fail if
the metadata file is absent, otherwise load both as they are. The files
are modelled by their optional contents. The method performs no
consistency check between index.ntotal and the metadata length. -/
def initialLoad {α : Type} (indexFile : Option FaissIndex)
    (metadataFile : Option (List α)) : Except InitError (FaissIndex × List α) :=
  match indexFile with
  | none => .error .indexNotFound
  | some ix =>
    match metadataFile with
    | none => .error .metadataNotFound
    | some docs => .ok (ix, docs)

/-- The score filter of LegalVectorStore.search: a result is dropped when a
threshold is given and the score is strictly below it. -/
def belowThreshold (score : ℚ) : Option ℚ → Bool
  | some t => score < t
  | none => false

/-- Result-extraction loop of LegalVectorStore.search. The FAISS call is
abstracted by its output: the zipped list of (score, index) pairs of
length k, sentinel index -1 marking missing neighbours. Scores are
rationals standing for the float similarities. A sentinel is skipped, a
below-threshold entry is skipped, otherwise the document list is indexed
with Python semantics. -/
def search {α : Type} (documents : List α) (faiss : List (ℚ × ℤ))
    (score_threshold : Option ℚ) : Except Unit (List (α × ℚ)) :=
  match faiss with
  | [] => .ok []
  | (score, idx) :: rest =>
    if idx = -1 then search documents rest score_threshold
    else if belowThreshold score score_threshold then
      search documents rest score_threshold
    else
      match pyGet documents idx with
      | .error e => .error e
      | .ok doc =>
        match search documents rest score_threshold with
        | .error e => .error e
        | .ok tailResults => .ok ((doc, score) :: tailResults)

end LegalVectorStore

/-- QueryRewriteResult: the structured rewrite object (the LegalOutput
schema of src/infrastructure/models.py, also the shape of the fallback
dict of rewrite_query). -/
structure QueryRewriteResult where
  tema_legal : String
  conceptos_clave : List String
  queries_optimizadas : List String
  leyes_relevantes : List String
  deriving DecidableEq, Repr

namespace LLMService

/-- The fallback object returned by the except branch of
LLMService.rewrite_query. -/
def rewriteFallback (user_query : String) : QueryRewriteResult :=
  { tema_legal := "No identificado"
    conceptos_clave := []
    queries_optimizadas := [user_query]
    leyes_relevantes := [] }

/-- LLMService.rewrite_query. The call to _get_service runs before the try
block, so a failure while obtaining the service instance propagates to the
caller; the try block covers the generate call and the JSON parse, and any
failure there yields the fallback object. The generative backend and the
JSON parse are abstracted as the Except-valued arguments. -/
def rewrite_query (getService : Except Unit Unit)
    (generateOutcome : Except Unit String)
    (parseJson : String → Except Unit QueryRewriteResult)
    (user_query : String) : Except Unit QueryRewriteResult :=
  match getService with
  | .error e => .error e
  | .ok _ =>
    match generateOutcome with
    | .error _ => .ok (rewriteFallback user_query)
    | .ok response =>
      match parseJson response with
      | .error _ => .ok (rewriteFallback user_query)
      | .ok result => .ok result

/-- LLMService.build_enhanced_query. In the source the rewrite result is a
dict read with .get defaults; every result produced by rewrite_query (a
parse of the LegalOutput schema, or the fallback) carries all four keys,
which the structured model makes intrinsic. -/
def build_enhanced_query (rewrite_result : QueryRewriteResult)
    (original_query : String) : String :=
  let queries := rewrite_result.queries_optimizadas
  let conceptos := rewrite_result.conceptos_clave
  let parts := [original_query]
  let parts := parts ++
    (if conceptos.isEmpty then [] else [pyJoin " " (conceptos.take 4)])
  let parts := parts ++
    (match queries with
     | [] => []
     | q0 :: _ => if q0 ≠ original_query then [q0] else [])
  pyJoin " | " parts

/-- Specification-side reading of the enhanced query (§4.4 of the spec,
worded as the spec does): the original query; up to the first 4
conceptos_clave joined by spaces, only if non-empty; the first
queries_optimizadas entry, only if it differs from the original query.
Compared with build_enhanced_query, which is translated from the source. -/
def enhancedQuerySpec (r : QueryRewriteResult) (q : String) : List String :=
  [q]
    ++ (if r.conceptos_clave = [] then []
        else [pyJoin " " (r.conceptos_clave.take 4)])
    ++ (match r.queries_optimizadas with
        | [] => []
        | q0 :: _ => if q0 = q then [] else [q0])

/-- LLMService._build_prompt: the final generation prompt embedding the
context and the question. -/
def buildPrompt (query context : String) : String :=
  "CONTEXTO LEGAL (Artículos relevantes de la legislación peruana):\n            "
    ++ context
    ++ "\n\n            ---\n\n            PREGUNTA DEL USUARIO:\n            "
    ++ query
    ++ "\n\n            ---\n\n            Por favor, responde la pregunta basándote ÚNICAMENTE en los artículos proporcionados arriba."

/-- LLMService.generate_response: build the prompt from the query and the
context, then call the generative service (abstracted as svc). -/
def generate_response (svc : String → String) (query context : String) : String :=
  svc (buildPrompt query context)

end LLMService

namespace RAGService

/-- Python truthiness merge `override or configured` for the optional
top_k argument: None and 0 both fall back to the configured value. -/
def pyOrInt (override : Option ℤ) (configured : ℤ) : ℤ :=
  match override with
  | none => configured
  | some v => if v = 0 then configured else v

/-- Python truthiness merge `override or configured` for the optional
score_threshold argument: None and 0.0 both fall back to the configured
value. -/
def pyOrRat (override : Option ℚ) (configured : ℚ) : ℚ :=
  match override with
  | none => configured
  | some v => if v = 0 then configured else v

/-- A stored document dict of the serving layer (one pickled metadata
entry), reduced to the keys _format_sources and search_with_context read. -/
structure StoredDoc where
  id : String
  source_id : String
  payload : Payload
  hierarchy : Hierarchy
  deriving DecidableEq, Repr

/-- One formatted source of RAGService._format_sources. The hierarchy keys
are always present in the stored dicts (possibly null), so the .get calls
return the stored optional values. -/
structure FormattedSource where
  id : String
  source : String
  label : String
  text : String
  hierarchy_title : Option String
  hierarchy_chapter : Option String
  hierarchy_section : Option String
  similarity_score : ℚ
  deriving DecidableEq, Repr

/-- RAGService._format_sources applied to one (document, score) hit:
project the fields and truncate text beyond 500 characters with an
ellipsis. -/
def formatSource (s : StoredDoc × ℚ) : FormattedSource :=
  let payload := s.1.payload
  let hierarchy := s.1.hierarchy
  { id := s.1.id
    source := s.1.source_id
    label := payload.label
    text :=
      if payload.text_content.length > 500 then
        pyTake 500 payload.text_content ++ "..."
      else payload.text_content
    hierarchy_title := hierarchy.level_1
    hierarchy_chapter := hierarchy.level_2
    hierarchy_section := hierarchy.level_3
    similarity_score := s.2 }

/-- RAGService._format_sources. -/
def formatSources (sources : List (StoredDoc × ℚ)) : List FormattedSource :=
  sources.map formatSource

/-- RAGResponse dataclass of rag_service.py. -/
structure RAGResponse where
  answer : String
  sources : List FormattedSource
  query : String
  total_sources_found : ℕ
  rewrite_info : Option QueryRewriteResult
  deriving DecidableEq, Repr

/-- The RAG defaults read from settings at service construction. -/
structure Config where
  topK : ℤ
  scoreThreshold : ℚ
  deriving DecidableEq, Repr

/-- The fixed answer used when no source clears the retrieval. -/
def noResultsAnswer : String :=
  "No encontré artículos relevantes para tu consulta en la base de datos legal. Por favor, intenta reformular tu pregunta o consulta con un abogado especializado."

/-- The fallback loop of RAGService.query (step 4): walk the alternative
optimized queries in order; each is embedded and searched, overwriting the
committed (sources, context) pair, and the loop breaks at the first
non-empty result list. searchWC abstracts embed_query followed by
vector_store.search_with_context, as a function of the query text, k and
the threshold. -/
def cascadeLoop (searchWC : String → ℤ → ℚ → List (StoredDoc × ℚ) × String)
    (k : ℤ) (threshold : ℚ) :
    List String → List (StoredDoc × ℚ) × String → List (StoredDoc × ℚ) × String
  | [], committed => committed
  | altQuery :: rest, _committed =>
    let r := searchWC altQuery k threshold
    if r.1.isEmpty then cascadeLoop searchWC k threshold rest r
    else r

/-- RAGService.query. The rewrite call, the embed-and-search composite and
the generative service are abstracted as arguments. The second component
of the result records the prompt passed to the generative service (none
when generation was short-circuited by the empty-result answer). -/
def query (cfg : Config)
    (rewriteOutcome : Except Unit QueryRewriteResult)
    (searchWC : String → ℤ → ℚ → List (StoredDoc × ℚ) × String)
    (generateSvc : String → String)
    (user_query : String)
    (top_k : Option ℤ) (score_threshold : Option ℚ)
    (use_query_rewriting : Bool) : RAGResponse × Option String :=
  let k := pyOrInt top_k cfg.topK
  let threshold := pyOrRat score_threshold cfg.scoreThreshold
  let st :=
    if use_query_rewriting then
      match rewriteOutcome with
      | .ok info => (some info, LLMService.build_enhanced_query info user_query)
      | .error _ => (none, user_query)
    else (none, user_query)
  let rewrite_info := st.1
  let search_query := st.2
  let primary := searchWC search_query k threshold
  let committed :=
    if primary.1.isEmpty
        && (match rewrite_info with
            | some info => decide (info.queries_optimizadas.length > 1)
            | none => false) then
      cascadeLoop searchWC k (threshold * (8 / 10))
        ((match rewrite_info with
          | some info => info.queries_optimizadas
          | none => []).tail) primary
    else primary
  let sources := committed.1
  let context := committed.2
  let gen :=
    if sources.isEmpty then (noResultsAnswer, none)
    else
      let prompt := LLMService.buildPrompt user_query context
      (generateSvc prompt, some prompt)
  ({ answer := gen.1
     sources := formatSources sources
     query := user_query
     total_sources_found := sources.length
     rewrite_info := rewrite_info }, gen.2)

/-- RAGService.retrieve_only: merge the overrides with the configured
defaults by Python truthiness, then embed and search. -/
def retrieve_only
    (cfg : Config)
    (searchWC : String → ℤ → ℚ → List (StoredDoc × ℚ) × String)
    (user_query : String)
    (top_k : Option ℤ) (score_threshold : Option ℚ) :
    List (StoredDoc × ℚ) × String :=
  searchWC user_query (pyOrInt top_k cfg.topK) (pyOrRat score_threshold cfg.scoreThreshold)

end RAGService

/-- Helper: the título loop of the constitution parser leaves the capítulo
component at none whenever it started at none — its only write to that
component is the reset to none. -/
lemma tituloLoop_snd_none (position : ℕ) :
    ∀ (l : List HMatch) (st : Option String × Option String), st.2 = none →
      (ConstitutionParser.tituloLoop position l st).2 = none := by
  intro l
  induction l with
  | nil => intro st h; simpa [ConstitutionParser.tituloLoop] using h
  | cons m rest ih =>
    intro st h
    by_cases hm : m.start < position
    · simp only [ConstitutionParser.tituloLoop, if_pos hm]
      exact ih _ rfl
    · simpa [ConstitutionParser.tituloLoop, hm] using h

/-- C1: the claimed reset of lower-level state by a higher-level boundary
does not happen. In ConstitutionParser._find_hierarchy_at_position the
capítulo returned is exactly the last capítulo match before the position,
independent of the título matches, so the in-loop reset never reaches the
result; concretely, an article right after a new título whose only
capítulo heading lies before that título is still assigned that superseded
capítulo, and the civil-code parser likewise re-assigns a sección that
precedes the last libro boundary. -/
theorem claim_C1_reset_ineffective :
    (∀ (titulos capitulos : List HMatch) (position : ℕ),
      (ConstitutionParser.findHierarchyAtPosition titulos capitulos position).2
        = ConstitutionParser.capituloLoop position capitulos none)
    ∧ ConstitutionParser.findHierarchyAtPosition
        [⟨22, "II", "DEL ESTADO"⟩] [⟨0, "I", "DE PRUEBA"⟩] 45
        = (some "Título II: DEL ESTADO", some "Capítulo I: DE PRUEBA")
    ∧ CivilCodeParser.findHierarchyAtPosition
        ⟨[⟨22, "I", "DERECHO B"⟩], [⟨0, "PRIMERA", "A"⟩], [], [], none⟩ 45
        = (some "Libro I: DERECHO B", some "Sección PRIMERA: A") := by
  refine ⟨?_, by decide, by decide⟩
  intro titulos capitulos position
  have h := tituloLoop_snd_none position titulos (none, none) rfl
  simp only [ConstitutionParser.findHierarchyAtPosition]
  rw [h]

/-- Helper: appending on the left of a fixed string is injective. -/
lemma string_append_left_cancel {s a b : String} (h : s ++ a = s ++ b) : a = b := by
  have hd := congrArg String.data h
  simp only [String.data_append] at hd
  exact String.ext (List.append_cancel_left hd)

/-- Helper: the civil-code deterministic article id is injective in the
article number. -/
lemma civil_artId_inj : Function.Injective CivilCodeParser.generateArticleId := by
  intro a b h
  exact string_append_left_cancel h

/-- Helper: the constitution deterministic article id is injective in the
article number. -/
lemma const_artId_inj : Function.Injective ConstitutionParser.generateArticleId := by
  intro a b h
  exact string_append_left_cancel h

/-- Helper: every record emitted by the civil-code article loop has an id
outside the seen set it started with. -/
lemma parseGo_not_mem_seen (clean : String → String) (sc : CivilCodeParser.Scan) :
    ∀ (arts : List ArtMatch) (seen : List String),
      ∀ a ∈ CivilCodeParser.parseGo clean sc arts seen, a.id ∉ seen := by
  intro arts
  induction arts with
  | nil => simp [CivilCodeParser.parseGo]
  | cons m rest ih =>
    intro seen a ha
    by_cases hm : CivilCodeParser.generateArticleId m.numero ∈ seen
    · exact ih seen a (by simpa [CivilCodeParser.parseGo, hm] using ha)
    · simp only [CivilCodeParser.parseGo, if_neg hm, List.mem_cons] at ha
      rcases ha with rfl | ha
      · simpa [CivilCodeParser.mkArticle] using hm
      · have hnot := ih _ a ha
        intro hmem
        exact hnot (List.mem_cons_of_mem _ hmem)

/-- Helper: the ids emitted by the civil-code article loop are pairwise
distinct, for every starting seen set. -/
lemma parseGo_ids_nodup (clean : String → String) (sc : CivilCodeParser.Scan) :
    ∀ (arts : List ArtMatch) (seen : List String),
      ((CivilCodeParser.parseGo clean sc arts seen).map (·.id)).Nodup := by
  intro arts
  induction arts with
  | nil => simp [CivilCodeParser.parseGo]
  | cons m rest ih =>
    intro seen
    by_cases hm : CivilCodeParser.generateArticleId m.numero ∈ seen
    · simpa [CivilCodeParser.parseGo, hm] using ih seen
    · simp only [CivilCodeParser.parseGo, if_neg hm, List.map_cons, List.nodup_cons]
      refine ⟨?_, ih _⟩
      intro hmem
      rw [List.mem_map] at hmem
      obtain ⟨a, ha, hid⟩ := hmem
      have hnot := parseGo_not_mem_seen clean sc rest
        (CivilCodeParser.generateArticleId m.numero :: seen) a ha
      apply hnot
      simp only [CivilCodeParser.mkArticle] at hid
      rw [hid]
      exact List.mem_cons_self _ _

/-- Helper: with pairwise-distinct ids none of which was already seen, the
civil-code article loop keeps every match. -/
lemma parseGo_length (clean : String → String) (sc : CivilCodeParser.Scan) :
    ∀ (arts : List ArtMatch) (seen : List String),
      ((arts.map fun m => CivilCodeParser.generateArticleId m.numero)).Nodup →
      (∀ m ∈ arts, CivilCodeParser.generateArticleId m.numero ∉ seen) →
      (CivilCodeParser.parseGo clean sc arts seen).length = arts.length := by
  intro arts
  induction arts with
  | nil => simp [CivilCodeParser.parseGo]
  | cons m rest ih =>
    intro seen hnodup hseen
    have hm : CivilCodeParser.generateArticleId m.numero ∉ seen :=
      hseen m (List.mem_cons_self _ _)
    have h2 := hnodup
    rw [List.map_cons, List.nodup_cons] at h2
    have hseen' : ∀ m' ∈ rest, CivilCodeParser.generateArticleId m'.numero ∉
        CivilCodeParser.generateArticleId m.numero :: seen := by
      intro m' hm' hmem
      rcases List.mem_cons.mp hmem with heq | hmem'
      · exact h2.1 (by rw [← heq]; exact List.mem_map_of_mem _ hm')
      · exact hseen m' (List.mem_cons_of_mem _ hm') hmem'
    simp only [CivilCodeParser.parseGo, if_neg hm, List.length_cons]
    rw [ih _ h2.2 hseen']

/-- Helper: the ids of the constitution article records are the mapped
deterministic ids of the matches, in order. -/
lemma const_parse_ids (clean : String → String) (titulos capitulos : List HMatch)
    (arts : List ArtMatch) :
    (ConstitutionParser.parse clean titulos capitulos arts none).map (·.id)
      = (arts.map (·.numero)).map ConstitutionParser.generateArticleId := by
  simp [ConstitutionParser.parse, ConstitutionParser.mkArticle, List.map_map]

/-- C2 counterexample: ConstitutionParser.parse performs no deduplication;
two article matches with the same number yield two records with the same
deterministic id, so the emitted ids are not unique and the second
occurrence is not discarded. -/
theorem claim_C2_counterexample :
    ((ConstitutionParser.parse id [] [] [⟨0, "1", "x"⟩, ⟨20, "1", "y"⟩] none).map
        (·.id))
      = ["CONST_1993_ART_1", "CONST_1993_ART_1"]
    ∧ ¬ ((ConstitutionParser.parse id [] [] [⟨0, "1", "x"⟩, ⟨20, "1", "y"⟩]
          none).map (·.id)).Nodup := by
  exact ⟨by decide, by decide⟩

/-- C2 (amended): CivilCodeParser.parse deduplicates by deterministic id —
its emitted ids are always pairwise distinct, later occurrences of a seen
number are discarded whole (not merged) — and with N distinct article
numbers it emits exactly N records; ConstitutionParser.parse emits one
record per match with no deduplication, so only for distinct numbers are
its N emitted ids unique. -/
theorem claim_C2_dedup :
    (∀ (clean : String → String) (sc : CivilCodeParser.Scan)
      (arts : List ArtMatch),
      ((CivilCodeParser.parse clean sc arts).map (·.id)).Nodup)
    ∧ (∀ (clean : String → String) (sc : CivilCodeParser.Scan)
        (arts : List ArtMatch),
        (arts.map (·.numero)).Nodup →
        (CivilCodeParser.parse clean sc arts).length = arts.length)
    ∧ (∀ (clean : String → String) (titulos capitulos : List HMatch)
        (arts : List ArtMatch),
        (arts.map (·.numero)).Nodup →
        (ConstitutionParser.parse clean titulos capitulos arts none).length
            = arts.length
          ∧ ((ConstitutionParser.parse clean titulos capitulos arts
              none).map (·.id)).Nodup)
    ∧ ((CivilCodeParser.parse id ⟨[], [], [], [], none⟩
          [⟨0, "1", "x"⟩, ⟨20, "1", "y"⟩]).map
        (fun a => (a.id, a.payload.text_content)) = [("CC_ART_1", "x")]) := by
  refine ⟨?_, ?_, ?_, by decide⟩
  · intro clean sc arts
    exact parseGo_ids_nodup clean sc arts []
  · intro clean sc arts hnodup
    refine parseGo_length clean sc arts [] ?_ (by simp)
    have : (arts.map fun m => CivilCodeParser.generateArticleId m.numero)
        = (arts.map (·.numero)).map CivilCodeParser.generateArticleId := by
      simp [List.map_map]
    rw [this]
    exact hnodup.map civil_artId_inj
  · intro clean titulos capitulos arts hnodup
    constructor
    · simp [ConstitutionParser.parse]
    · rw [const_parse_ids]
      exact hnodup.map const_artId_inj

/-- C2 witness: the dedup theorem applied at concrete distinct-number
match lists. -/
theorem claim_C2_dedup_witness :
    ((([⟨0, "1", "x"⟩, ⟨9, "2", "y"⟩] : List ArtMatch).map (·.numero)).Nodup)
    ∧ (CivilCodeParser.parse id ⟨[], [], [], [], none⟩
        [⟨0, "1", "x"⟩, ⟨9, "2", "y"⟩]).length = 2
    ∧ (ConstitutionParser.parse id [] [] [⟨0, "1", "x"⟩, ⟨9, "2", "y"⟩]
        none).length = 2 :=
  ⟨by decide,
   claim_C2_dedup.2.1 id ⟨[], [], [], [], none⟩ [⟨0, "1", "x"⟩, ⟨9, "2", "y"⟩]
     (by decide),
   (claim_C2_dedup.2.2.1 id [] [] [⟨0, "1", "x"⟩, ⟨9, "2", "y"⟩] (by decide)).1⟩

/-- C3 counterexample: loading with both artifact files present but a
vector count that disagrees with the metadata length succeeds — no
CorruptIndex-style error is raised. -/
theorem claim_C3_counterexample :
    LegalVectorStore.initialLoad (α := ℕ) (some ⟨5⟩) (some [])
      = .ok (⟨5⟩, [])
    ∧ (⟨5⟩ : LegalVectorStore.FaissIndex).ntotal ≠ ([] : List ℕ).length := by
  exact ⟨rfl, by decide⟩

/-- C3 (amended): loading fails exactly when the index file or the
metadata file is absent, and on success returns both artifacts exactly as
stored (no truncation or padding); no count-consistency check is made. -/
theorem claim_C3_missing_artifact_only :
    ∀ (α : Type) (indexFile : Option LegalVectorStore.FaissIndex)
      (metadataFile : Option (List α)),
      ((∃ e, LegalVectorStore.initialLoad indexFile metadataFile = .error e)
        ↔ (indexFile = none ∨ metadataFile = none))
      ∧ (∀ ix docs, indexFile = some ix → metadataFile = some docs →
          LegalVectorStore.initialLoad indexFile metadataFile = .ok (ix, docs)) := by
  intro α indexFile metadataFile
  constructor
  · cases indexFile <;> cases metadataFile <;>
      simp [LegalVectorStore.initialLoad]
  · intro ix docs h1 h2
    subst h1
    subst h2
    rfl

/-- C3 witness: the amended load theorem applied at concrete artifacts. -/
theorem claim_C3_missing_artifact_only_witness :
    LegalVectorStore.initialLoad (α := ℕ) (some ⟨7⟩) (some [1, 2])
      = .ok (⟨7⟩, [1, 2])
    ∧ (∃ e, LegalVectorStore.initialLoad (α := ℕ) none none = .error e) :=
  ⟨(claim_C3_missing_artifact_only ℕ (some ⟨7⟩) (some [1, 2])).2 ⟨7⟩ [1, 2] rfl rfl,
   (claim_C3_missing_artifact_only ℕ none none).1.mpr (Or.inl rfl)⟩

/-- C4 counterexample: rewrite_query raises when obtaining the service
instance fails (the _get_service call runs before the try block), and the
fallback topic literal is the Spanish "No identificado". -/
theorem claim_C4_counterexample :
    LLMService.rewrite_query (.error ()) (.ok "x") (fun _ => .error ()) "hola"
      = .error ()
    ∧ (LLMService.rewriteFallback "hola").tema_legal ≠ "unidentified" := by
  exact ⟨rfl, by decide⟩

/-- C4 (amended): once the service instance is obtained, rewrite_query
never raises; any generate failure or parse failure yields the fallback
object, whose fields are tema_legal "No identificado", empty
conceptos_clave, queries_optimizadas equal to the singleton original
query, and empty leyes_relevantes. -/
theorem claim_C4_fail_soft_after_service :
    ∀ (generateOutcome : Except Unit String)
      (parseJson : String → Except Unit QueryRewriteResult) (q : String),
      (∃ r, LLMService.rewrite_query (.ok ()) generateOutcome parseJson q = .ok r)
      ∧ (∀ e, generateOutcome = .error e →
          LLMService.rewrite_query (.ok ()) generateOutcome parseJson q
            = .ok (LLMService.rewriteFallback q))
      ∧ (∀ resp e, generateOutcome = .ok resp → parseJson resp = .error e →
          LLMService.rewrite_query (.ok ()) generateOutcome parseJson q
            = .ok (LLMService.rewriteFallback q))
      ∧ LLMService.rewriteFallback q = ⟨"No identificado", [], [q], []⟩ := by
  intro g p q
  refine ⟨?_, ?_, ?_, rfl⟩
  · cases g with
    | error e => exact ⟨_, rfl⟩
    | ok resp =>
      cases hp : p resp with
      | error e =>
        exact ⟨LLMService.rewriteFallback q, by simp [LLMService.rewrite_query, hp]⟩
      | ok r => exact ⟨r, by simp [LLMService.rewrite_query, hp]⟩
  · intro e he
    subst he
    rfl
  · intro resp e hg hp
    subst hg
    simp [LLMService.rewrite_query, hp]

/-- C4 witness: the fail-soft theorem applied at a concrete failing
backend. -/
theorem claim_C4_fail_soft_after_service_witness :
    LLMService.rewrite_query (.ok ()) (.error ()) (fun _ => .error ()) "hola"
      = .ok (LLMService.rewriteFallback "hola") :=
  (claim_C4_fail_soft_after_service (.error ()) (fun _ => .error ()) "hola").2.1 () rfl

/-- C6: build_enhanced_query concatenates, joined by the separator,
exactly the parts the spec describes, and applied to the fallback rewrite
result of a query it returns that query unchanged. -/
theorem claim_C6_build_enhanced_query :
    ∀ (r : QueryRewriteResult) (q : String),
      LLMService.build_enhanced_query r q
        = pyJoin " | " (LLMService.enhancedQuerySpec r q)
      ∧ LLMService.build_enhanced_query (LLMService.rewriteFallback q) q = q := by
  intro r q
  constructor
  · rcases r with ⟨t, cs, qs, ls⟩
    cases qs with
    | nil =>
      cases cs <;>
        simp [LLMService.build_enhanced_query, LLMService.enhancedQuerySpec]
    | cons q0 rest =>
      by_cases hq : q0 = q <;> cases cs <;>
        simp [LLMService.build_enhanced_query, LLMService.enhancedQuerySpec, hq]
  · simp [LLMService.build_enhanced_query, LLMService.rewriteFallback, pyJoin]

/-- C10: a zero override for top_k or score_threshold is treated as unset
by the Python truthiness merge, so query and retrieve_only behave exactly
as with no override and the configured defaults take effect. -/
theorem claim_C10_zero_override_is_unset :
    ∀ (cfg : RAGService.Config) (rewriteOutcome : Except Unit QueryRewriteResult)
      (searchWC : String → ℤ → ℚ → List (RAGService.StoredDoc × ℚ) × String)
      (generateSvc : String → String) (q : String) (b : Bool),
      RAGService.query cfg rewriteOutcome searchWC generateSvc q
          (some 0) (some 0) b
        = RAGService.query cfg rewriteOutcome searchWC generateSvc q none none b
      ∧ RAGService.retrieve_only cfg searchWC q (some 0) (some 0)
        = RAGService.retrieve_only cfg searchWC q none none
      ∧ RAGService.pyOrInt (some 0) cfg.topK = cfg.topK
      ∧ RAGService.pyOrRat (some 0) cfg.scoreThreshold = cfg.scoreThreshold := by
  intro cfg ro s g q b
  refine ⟨?_, ?_, rfl, rfl⟩
  · simp [RAGService.query, RAGService.pyOrInt, RAGService.pyOrRat]
  · simp [RAGService.retrieve_only, RAGService.pyOrInt, RAGService.pyOrRat]

/-- Helper: every hit returned by a thresholded search scores at least the
threshold. -/
lemma search_some_le {α : Type} (documents : List α) (t : ℚ) :
    ∀ (faiss : List (ℚ × ℤ)) (r : List (α × ℚ)),
      LegalVectorStore.search documents faiss (some t) = .ok r →
      ∀ p ∈ r, t ≤ p.2 := by
  intro faiss
  induction faiss with
  | nil =>
    intro r h
    simp only [LegalVectorStore.search] at h
    cases h
    simp
  | cons hd rest ih =>
    obtain ⟨s, i⟩ := hd
    intro r h
    simp only [LegalVectorStore.search] at h
    split_ifs at h with h1 h2
    · exact ih r h
    · exact ih r h
    · cases hdoc : pyGet documents i with
      | error e => rw [hdoc] at h; cases h
      | ok doc =>
        rw [hdoc] at h
        cases hrest : LegalVectorStore.search documents rest (some t) with
        | error e => rw [hrest] at h; cases h
        | ok tl =>
          rw [hrest] at h
          cases h
          intro p hp
          rcases List.mem_cons.mp hp with rfl | hp'
          · simp only [LegalVectorStore.belowThreshold, decide_eq_true_eq] at h2
            exact le_of_not_lt h2
          · exact ih tl hrest p hp'

/-- Helper: the thresholded search is the unfiltered search with the
strictly-below-threshold hits removed. -/
lemma search_some_eq_filter {α : Type} (documents : List α) (t : ℚ) :
    ∀ (faiss : List (ℚ × ℤ)) (r0 : List (α × ℚ)),
      LegalVectorStore.search documents faiss none = .ok r0 →
      LegalVectorStore.search documents faiss (some t)
        = .ok (r0.filter fun p => decide (t ≤ p.2)) := by
  intro faiss
  induction faiss with
  | nil =>
    intro r0 h
    simp only [LegalVectorStore.search] at h ⊢
    cases h
    rfl
  | cons hd rest ih =>
    obtain ⟨s, i⟩ := hd
    intro r0 h
    simp only [LegalVectorStore.search] at h ⊢
    by_cases h1 : i = -1
    · rw [if_pos h1] at h ⊢
      exact ih r0 h
    · rw [if_neg h1] at h ⊢
      simp only [LegalVectorStore.belowThreshold, Bool.false_eq_true, if_false] at h
      cases hdoc : pyGet documents i with
      | error e => rw [hdoc] at h; cases h
      | ok doc =>
        rw [hdoc] at h
        cases hrest : LegalVectorStore.search documents rest none with
        | error e => rw [hrest] at h; cases h
        | ok tl0 =>
          rw [hrest] at h
          cases h
          by_cases hbt : LegalVectorStore.belowThreshold s (some t) = true
          · rw [if_pos hbt, ih tl0 hrest]
            simp only [LegalVectorStore.belowThreshold, decide_eq_true_eq] at hbt
            have : (decide (t ≤ s)) = false := by
              simp only [decide_eq_false_iff_not]
              exact not_le_of_lt hbt
            simp [List.filter_cons, this]
          · rw [if_neg hbt, ih tl0 hrest]
            simp only [LegalVectorStore.belowThreshold, decide_eq_true_eq] at hbt
            have : (decide (t ≤ s)) = true := by
              simp only [decide_eq_true_eq]
              exact le_of_not_lt hbt
            simp [List.filter_cons, this]

/-- C7: every hit whose score is strictly below the given threshold is
absent from the result — the thresholded search equals the unfiltered
search with exactly those hits removed, and every returned hit scores at
least the threshold; with no threshold no score filtering occurs. -/
theorem claim_C7_threshold_excludes :
    ∀ (α : Type) (documents : List α) (faiss : List (ℚ × ℤ)) (t : ℚ),
      (∀ r, LegalVectorStore.search documents faiss (some t) = .ok r →
        ∀ p ∈ r, t ≤ p.2)
      ∧ (∀ r0, LegalVectorStore.search documents faiss none = .ok r0 →
          LegalVectorStore.search documents faiss (some t)
            = .ok (r0.filter fun p => decide (t ≤ p.2))) := by
  intro α documents faiss t
  exact ⟨fun r h => search_some_le documents t faiss r h,
         fun r0 h => search_some_eq_filter documents t faiss r0 h⟩

/-- C7 witness: the threshold theorem applied at a concrete corpus and
FAISS output. -/
theorem claim_C7_threshold_excludes_witness :
    (∀ p ∈ [(("a" : String), (1 : ℚ))], (1 : ℚ) ≤ p.2)
    ∧ LegalVectorStore.search ["a", "b"] [((1 : ℚ), (0 : ℤ)), (0, 1)] (some 1)
      = .ok [("a", 1)] := by
  have h := claim_C7_threshold_excludes String ["a", "b"]
    [((1 : ℚ), (0 : ℤ)), (0, 1)] 1
  have h2 := h.2 [("a", 1), ("b", 0)] rfl
  have hf : List.filter (fun p => decide ((1 : ℚ) ≤ p.2))
      [(("a" : String), (1 : ℚ)), ("b", 0)] = [("a", 1)] := by decide
  rw [hf] at h2
  exact ⟨h.1 [("a", 1)] h2, h2⟩

/-- Helper: Python indexing succeeds and returns a stored element whenever
the index is non-negative and within range. -/
lemma pyGet_ok_of_bounds {α : Type} (l : List α) (i : ℤ) (h0 : 0 ≤ i)
    (hl : i < (l.length : ℤ)) : ∃ a, pyGet l i = .ok a ∧ a ∈ l := by
  have hneg : ¬ i < 0 := not_lt.mpr h0
  have htn : i.toNat < l.length := by omega
  refine ⟨l.get ⟨i.toNat, htn⟩, ?_, List.get_mem l i.toNat htn⟩
  simp only [pyGet, if_neg hneg]
  rw [dif_pos ⟨h0, htn⟩]

/-- Helper: a duplicate-free list of integers all lying in [0, n) has at
most n elements. -/
lemma nodup_int_bound (l : List ℤ) (n : ℕ) (hnd : l.Nodup)
    (hb : ∀ i ∈ l, 0 ≤ i ∧ i < (n : ℤ)) : l.length ≤ n := by
  have hnd' : (l.map Int.toNat).Nodup := by
    refine hnd.map_on ?_
    intro x hx y hy hxy
    have hx0 := (hb x hx).1
    have hy0 := (hb y hy).1
    omega
  have hsub : (l.map Int.toNat).toFinset ⊆ Finset.range n := by
    intro m hm
    rw [List.mem_toFinset, List.mem_map] at hm
    obtain ⟨i, hi, rfl⟩ := hm
    rw [Finset.mem_range]
    have := hb i hi
    omega
  have hcard := Finset.card_le_card hsub
  rw [Finset.card_range, List.toFinset_card_of_nodup hnd'] at hcard
  simpa using hcard

/-- Helper: with every FAISS index either the sentinel or in range, the
search succeeds, returns at most one hit per non-sentinel index, and only
stored documents. -/
lemma search_ok_of_valid {α : Type} (documents : List α) (t : Option ℚ) :
    ∀ (faiss : List (ℚ × ℤ)),
      (∀ p ∈ faiss, p.2 = -1 ∨ (0 ≤ p.2 ∧ p.2 < (documents.length : ℤ))) →
      ∃ r, LegalVectorStore.search documents faiss t = .ok r
        ∧ r.length ≤ ((faiss.map Prod.snd).filter fun i => decide (i ≠ -1)).length
        ∧ ∀ p ∈ r, p.1 ∈ documents := by
  intro faiss
  induction faiss with
  | nil => exact fun _ => ⟨[], rfl, by simp, by simp⟩
  | cons hd rest ih =>
    obtain ⟨s, i⟩ := hd
    intro hv
    obtain ⟨r', hr', hlen', hmem'⟩ :=
      ih fun p hp => hv p (List.mem_cons_of_mem _ hp)
    by_cases hi : i = -1
    · refine ⟨r', ?_, ?_, hmem'⟩
      · simp only [LegalVectorStore.search]
        rw [if_pos hi]
        exact hr'
      · simpa [List.filter_cons, hi] using hlen'
    · rcases hv (s, i) (List.mem_cons_self _ _) with h | hbound
      · exact absurd h hi
      obtain ⟨a, ha, hamem⟩ := pyGet_ok_of_bounds documents i hbound.1 hbound.2
      by_cases hbt : LegalVectorStore.belowThreshold s t = true
      · refine ⟨r', ?_, ?_, hmem'⟩
        · simp only [LegalVectorStore.search]
          rw [if_neg hi, if_pos hbt]
          exact hr'
        · have hpred : (decide (i ≠ -1)) = true := by
            simp only [decide_eq_true_eq]
            exact hi
          simp only [List.map_cons, List.filter_cons, hpred, if_true,
            List.length_cons]
          omega
      · refine ⟨(a, s) :: r', ?_, ?_, ?_⟩
        · simp only [LegalVectorStore.search]
          rw [if_neg hi, if_neg hbt, ha, hr']
        · simp only [List.map_cons, List.filter_cons, List.length_cons]
          have hpred : (decide (i ≠ -1)) = true := by
            simp only [decide_eq_true_eq]
            exact hi
          rw [hpred]
          simp only [if_true, List.length_cons]
          omega
        · intro p hp
          rcases List.mem_cons.mp hp with rfl | hp'
          · exact hamem
          · exact hmem' p hp'

/-- C9: when every non-sentinel FAISS index is in range and the
non-sentinel indices are pairwise distinct (the FAISS kNN contract), the
search performs no out-of-range metadata lookup — it succeeds, returns at
most as many hits as there are stored records however large k was, and
every returned hit is an actually stored record. -/
theorem claim_C9_k_exceeds_corpus_safe :
    ∀ (α : Type) (documents : List α) (faiss : List (ℚ × ℤ)) (t : Option ℚ),
      (∀ p ∈ faiss, p.2 = -1 ∨ (0 ≤ p.2 ∧ p.2 < (documents.length : ℤ))) →
      ((faiss.map Prod.snd).filter fun i => decide (i ≠ -1)).Nodup →
      ∃ r, LegalVectorStore.search documents faiss t = .ok r
        ∧ r.length ≤ documents.length
        ∧ ∀ p ∈ r, p.1 ∈ documents := by
  intro α documents faiss t hv hnd
  obtain ⟨r, hr, hlen, hmem⟩ := search_ok_of_valid documents t faiss hv
  refine ⟨r, hr, ?_, hmem⟩
  have hbound : ∀ i ∈ (faiss.map Prod.snd).filter fun i => decide (i ≠ -1),
      0 ≤ i ∧ i < (documents.length : ℤ) := by
    intro i hi
    rw [List.mem_filter] at hi
    obtain ⟨himem, hipred⟩ := hi
    rw [List.mem_map] at himem
    obtain ⟨p, hp, rfl⟩ := himem
    rcases hv p hp with h | h
    · rw [decide_eq_true_eq] at hipred
      exact absurd h hipred
    · exact h
  exact le_trans hlen
    (nodup_int_bound _ documents.length hnd hbound)

/-- C9 witness: the bounded-search theorem applied at a concrete corpus of
2 records queried with k = 3 (one sentinel neighbour). -/
theorem claim_C9_k_exceeds_corpus_safe_witness :
    ∃ r, LegalVectorStore.search ["a", "b"]
        [((1 : ℚ), (0 : ℤ)), (0, 1), (0, -1)] none = .ok r
      ∧ r.length ≤ (["a", "b"] : List String).length
      ∧ ∀ p ∈ r, p.1 ∈ (["a", "b"] : List String) :=
  claim_C9_k_exceeds_corpus_safe String ["a", "b"]
    [((1 : ℚ), (0 : ℤ)), (0, 1), (0, -1)] none (by decide) (by decide)

/-- Helper: a non-nil list has isEmpty false. -/
lemma isEmpty_false_of_ne {α : Type} {l : List α} (h : l ≠ []) :
    l.isEmpty = false := by
  cases l with
  | nil => exact absurd rfl h
  | cons a t => rfl

/-- Helper: a nil list has isEmpty true. -/
lemma isEmpty_true_of_eq {α : Type} {l : List α} (h : l = []) :
    l.isEmpty = true := by
  subst h
  rfl

/-- C8: the prompt handed to the generative service, whenever one is sent,
is built from the original user query (the rewritten or enhanced query
only steers retrieval), and the response's query field is the original
user query. -/
theorem claim_C8_original_query_to_generator :
    ∀ (cfg : RAGService.Config) (rewriteOutcome : Except Unit QueryRewriteResult)
      (searchWC : String → ℤ → ℚ → List (RAGService.StoredDoc × ℚ) × String)
      (generateSvc : String → String) (q : String)
      (top_k : Option ℤ) (score_threshold : Option ℚ) (b : Bool),
      ((RAGService.query cfg rewriteOutcome searchWC generateSvc q top_k
            score_threshold b).2 = none
        ∨ ∃ ctx, (RAGService.query cfg rewriteOutcome searchWC generateSvc q
              top_k score_threshold b).2
            = some (LLMService.buildPrompt q ctx))
      ∧ (RAGService.query cfg rewriteOutcome searchWC generateSvc q top_k
          score_threshold b).1.query = q := by
  intro cfg ro s g q tk st b
  constructor
  · simp only [RAGService.query]
    repeat' split
    all_goals first
      | (left; rfl)
      | (right; exact ⟨_, rfl⟩)
  · rfl

/-- C5: the cascade runs only when the primary search commits zero results
and the rewrite yielded more than one optimized query; it walks the
variants after the first in order at the relaxed 0.8-scaled threshold and
commits exactly the first variant's non-empty result set, never merging
with an earlier attempt. -/
theorem claim_C5_cascade_commit :
    ∀ (cfg : RAGService.Config)
      (searchWC : String → ℤ → ℚ → List (RAGService.StoredDoc × ℚ) × String)
      (generateSvc : String → String) (q : String)
      (top_k : Option ℤ) (score_threshold : Option ℚ)
      (info : QueryRewriteResult) (k : ℤ) (thr : ℚ),
      k = RAGService.pyOrInt top_k cfg.topK →
      thr = RAGService.pyOrRat score_threshold cfg.scoreThreshold →
      (((searchWC (LLMService.build_enhanced_query info q) k thr).1 ≠ [] →
        (RAGService.query cfg (.ok info) searchWC generateSvc q top_k
            score_threshold true).1.sources
          = RAGService.formatSources
              (searchWC (LLMService.build_enhanced_query info q) k thr).1)
      ∧ (info.queries_optimizadas.length ≤ 1 →
          (RAGService.query cfg (.ok info) searchWC generateSvc q top_k
              score_threshold true).1.sources
            = RAGService.formatSources
                (searchWC (LLMService.build_enhanced_query info q) k thr).1)
      ∧ (∀ q0 q1 rest, info.queries_optimizadas = q0 :: q1 :: rest →
          (searchWC (LLMService.build_enhanced_query info q) k thr).1 = [] →
          (searchWC q1 k (thr * (8 / 10))).1 ≠ [] →
          (RAGService.query cfg (.ok info) searchWC generateSvc q top_k
              score_threshold true).1.sources
              = RAGService.formatSources (searchWC q1 k (thr * (8 / 10))).1
            ∧ (RAGService.query cfg (.ok info) searchWC generateSvc q top_k
                score_threshold true).1.total_sources_found
              = (searchWC q1 k (thr * (8 / 10))).1.length)
      ∧ (∀ q0 q1 q2 rest, info.queries_optimizadas = q0 :: q1 :: q2 :: rest →
          (searchWC (LLMService.build_enhanced_query info q) k thr).1 = [] →
          (searchWC q1 k (thr * (8 / 10))).1 = [] →
          (searchWC q2 k (thr * (8 / 10))).1 ≠ [] →
          (RAGService.query cfg (.ok info) searchWC generateSvc q top_k
              score_threshold true).1.sources
            = RAGService.formatSources (searchWC q2 k (thr * (8 / 10))).1)) := by
  intro cfg searchWC generateSvc q top_k score_threshold info k thr hk hthr
  subst hk
  subst hthr
  refine ⟨?_, ?_, ?_, ?_⟩
  · intro hne
    have he := isEmpty_false_of_ne hne
    simp [RAGService.query, he]
  · intro hle
    have hd : decide (info.queries_optimizadas.length > 1) = false := by
      simp only [decide_eq_false_iff_not]
      omega
    simp [RAGService.query, hd]
  · intro q0 q1 rest hinfo h1 h2
    have he1 := isEmpty_true_of_eq h1
    have he2 := isEmpty_false_of_ne h2
    have hd : decide ((q0 :: q1 :: rest).length > 1) = true := by
      simp only [List.length_cons, decide_eq_true_eq]
      omega
    constructor <;>
      simp [RAGService.query, RAGService.cascadeLoop, hinfo, he1, he2, hd]
  · intro q0 q1 q2 rest hinfo h1 h2 h3
    have he1 := isEmpty_true_of_eq h1
    have he2 := isEmpty_true_of_eq h2
    have he3 := isEmpty_false_of_ne h3
    have hd : decide ((q0 :: q1 :: q2 :: rest).length > 1) = true := by
      simp only [List.length_cons, decide_eq_true_eq]
      omega
    simp [RAGService.query, RAGService.cascadeLoop, hinfo, he1, he2, he3, hd]

/-- C5 witness: the cascade theorem applied at a concrete two-variant
rewrite whose second variant hits one stored record. -/
theorem claim_C5_cascade_commit_witness :
    (RAGService.query ⟨5, 1⟩ (.ok ⟨"t", [], ["a", "b"], []⟩)
        (fun s _ _ =>
          if s = "b" then
            ([((⟨"d", "src", ⟨"l", "tc"⟩, ⟨none, none, none⟩⟩ :
                RAGService.StoredDoc), (1 : ℚ))], "ctx")
          else ([], "no"))
        (fun _ => "ans") "q" none none true).1.sources
      = RAGService.formatSources
          [((⟨"d", "src", ⟨"l", "tc"⟩, ⟨none, none, none⟩⟩ :
              RAGService.StoredDoc), (1 : ℚ))]
    ∧ (RAGService.query ⟨5, 1⟩ (.ok ⟨"t", [], ["a", "b"], []⟩)
        (fun s _ _ =>
          if s = "b" then
            ([((⟨"d", "src", ⟨"l", "tc"⟩, ⟨none, none, none⟩⟩ :
                RAGService.StoredDoc), (1 : ℚ))], "ctx")
          else ([], "no"))
        (fun _ => "ans") "q" none none true).1.total_sources_found = 1 := by
  have h := (claim_C5_cascade_commit ⟨5, 1⟩
    (fun s _ _ =>
      if s = "b" then
        ([((⟨"d", "src", ⟨"l", "tc"⟩, ⟨none, none, none⟩⟩ :
            RAGService.StoredDoc), (1 : ℚ))], "ctx")
      else ([], "no"))
    (fun _ => "ans") "q" none none ⟨"t", [], ["a", "b"], []⟩ 5 1 rfl rfl).2.2.1
    "a" "b" [] rfl (by decide) (by decide)
  simpa using h

end LawCopilot
